import Mathlib

/-!
Shallow embedding of the NEO close-approach explorer
(models.py, database.py, filters.py, write.py).

Conventions of the embedding:
* Python `float` values that can be NaN are modelled as `Option Rat`
  (`none` = NaN); every Python comparison against NaN is `false`.
* Python `datetime.datetime` is modelled by `DateTime` (a calendar day
  plus a minute-of-day); `datetime.date` by `Date` (an integer day).
* Raising an exception is modelled by `Except PyError`; printing a
  diagnostic is modelled by returning a `List Report` of the messages
  printed (message text is abbreviated to a tag).
* A Python `dict` built by insertion is modelled as an insertion-ordered
  association list (`dictInsert` overwrites in place, keeps first-key
  order, last value wins), its `.get` as `dictGet`, iteration over
  `.values()` as iteration over the entry list.
* In-place attribute mutation performed by `NEODatabase.__init__`
  (setting `approach.neo`, appending to `neo.approaches`) is modelled by
  explicit state passing: `linkAux` returns the updated approach list and
  a map from a designation key to the index list of approaches appended
  to the dict entry stored under that key.
-/

namespace NeoExplorer

/-- A calendar date (`datetime.date`), abstracted to an integer day number. -/
abbrev Date := Int

/-- A `datetime.datetime`: a calendar day plus a minute of that day. -/
structure DateTime where
  day : Date
  minute : Nat
deriving DecidableEq, Repr

/-- The `.date()` method of a `datetime.datetime`. -/
def DateTime.date (t : DateTime) : Date := t.day

/-- Abstract injective stand-in for `helpers.datetime_to_str` /
`time.strftime("%Y-%m-%d %H:%M")` (helpers.py is out of scope; only the
fact that it formats a genuine datetime matters here). -/
def datetime_to_str (t : DateTime) : String :=
  toString t.day ++ " " ++ toString t.minute

/-- Exceptions that the modelled code can raise. -/
inductive PyError where
  /-- `AttributeError` from dereferencing `None` (e.g. `None.date()`). -/
  | attributeError
  /-- `TypeError` from an unsupported comparison. -/
  | typeError
  /-- `UnsupportedCriterionError` (a `NotImplementedError`) raised by the
  base `AttributeFilter.get`. -/
  | unsupportedCriterionError
deriving DecidableEq, Repr

/-- Diagnostics printed by the lookup methods of `NEODatabase`
(the message text is abbreviated to a tag). -/
inductive Report where
  /-- `Input error: ... must be a string.` -/
  | inputErrorNotString
  /-- `Input error: ... cannot be empty.` -/
  | inputErrorEmpty
  /-- `Search error: NEO ... not found.` -/
  | searchErrorNotFound
deriving DecidableEq, Repr

/-- An argument that may or may not be a `str` (for the `isinstance`
checks of the lookup methods; all non-string values behave alike there). -/
inductive PyObj where
  | nonString
  | pyStr (s : String)
deriving DecidableEq, Repr

/-- models.py `NearEarthObject` attribute record (the linker-populated
`approaches` attribute is carried externally by `NEODatabase`, see
`linkAux`). `diameter = none` models the NaN "unknown" sentinel. -/
structure NearEarthObject where
  designation : String
  name : Option String
  diameter : Option Rat
  hazardous : Bool
deriving DecidableEq, Repr

instance : Inhabited NearEarthObject := ⟨⟨"Unknown", none, none, false⟩⟩

/-- models.py `NearEarthObject.__init__`:
`self.name = str(name) if name else None` (falsy `None` and `""` both
become `None`); `self.diameter = float(diameter) if float(diameter) > 0
else float("nan")` with non-numeric input caught to NaN (a non-numeric or
NaN input is modelled as `none`); `self.hazardous = bool(hazardous)`. -/
def NearEarthObject.init (designation : String) (name : Option String)
    (diameter : Option Rat) (hazardous : Bool) : NearEarthObject :=
  { designation := designation
  , name :=
      match name with
      | some s => if s = "" then none else some s
      | none => none
  , diameter :=
      match diameter with
      | some d => if 0 < d then some d else none
      | none => none
  , hazardous := hazardous }

/-- models.py `CloseApproach` attribute record. `distance`/`velocity` are
floats (`none` = NaN); `neo` is the linker-populated back reference. -/
structure CloseApproach where
  designation : String
  time : Option DateTime
  distance : Option Rat
  velocity : Option Rat
  neo : Option NearEarthObject
deriving DecidableEq, Repr

instance : Inhabited CloseApproach := ⟨⟨"Unknown", none, none, none, none⟩⟩

/-- models.py `CloseApproach.__init__`:
`self.designation = designation if designation else "Unknown"`;
`self.time = cd_to_datetime(time) if time else None` (the out-of-scope
parser `cd_to_datetime` is abstracted away: the argument arrives already
parsed, and a falsy/absent argument leaves `time` as `None`);
`self.distance`, `self.velocity` and `self.neo` are stored unchanged. -/
def CloseApproach.init (designation : String) (time : Option DateTime)
    (distance : Option Rat) (velocity : Option Rat)
    (neo : Option NearEarthObject) : CloseApproach :=
  { designation := if designation = "" then "Unknown" else designation
  , time := time
  , distance := distance
  , velocity := velocity
  , neo := neo }

/-- The comparators used by filters.py (`operator.eq/ge/le`). -/
inductive Comparator where
  | eq
  | ge
  | le
deriving DecidableEq, Repr

/-- A Python value flowing through a filter comparison: a date, a float
(`none` = NaN), or a bool. -/
inductive Value where
  | vdate (d : Date)
  | vnum (q : Option Rat)
  | vbool (b : Bool)
deriving DecidableEq, Repr

/-- Python float comparison; any comparison involving NaN is `false`. -/
def ratCmp (op : Comparator) (x y : Option Rat) : Bool :=
  match x, y with
  | some a, some b =>
      match op with
      | .eq => decide (a = b)
      | .ge => decide (b ≤ a)
      | .le => decide (a ≤ b)
  | _, _ => false

/-- Numeric view of a value (`bool` is an `int` subtype in Python, so it
coerces in numeric comparisons: `True == 1.0`). -/
def Value.asNum : Value → Option (Option Rat)
  | .vnum q => some q
  | .vbool b => some (some (if b then 1 else 0))
  | .vdate _ => none

/-- `op(x, y)` for the comparators of the `operator` module: numbers (and
bools, as 0/1) compare numerically, dates compare as dates, `==` across
incomparable kinds is `False`, and an ordered comparison across kinds
raises `TypeError`. -/
def compareValues (op : Comparator) (x y : Value) : Except PyError Bool :=
  match x.asNum, y.asNum with
  | some a, some b => .ok (ratCmp op a b)
  | _, _ =>
      match x, y with
      | .vdate a, .vdate b =>
          .ok (match op with
               | .eq => decide (a = b)
               | .ge => decide (b ≤ a)
               | .le => decide (a ≤ b))
      | _, _ =>
          match op with
          | .eq => .ok false
          | _ => .error .typeError

/-- The dispatch tag of an attribute filter: the base class itself, or
one of the five subclasses of filters.py. -/
inductive FilterKind where
  | base
  | date
  | distance
  | velocity
  | diameter
  | hazardous
deriving DecidableEq, Repr

/-- filters.py `AttributeFilter(op, value)` together with the class the
instance was constructed from (`kind`), which selects the `get`
classmethod used at call time. -/
structure AttributeFilter where
  kind : FilterKind
  op : Comparator
  value : Value
deriving DecidableEq, Repr

/-- The `get` classmethod selected by the class of the filter:
* base `AttributeFilter.get` raises `UnsupportedCriterionError`;
* `DateFilter.get` returns `approach.time.date()` (an `AttributeError`
  when `time` is `None`: no guard in the source);
* `DistanceFilter.get` / `VelocityFilter.get` return the float attribute;
* `DiameterFilter.get` / `HazardousFilter.get` dereference
  `approach.neo` (an `AttributeError` when `neo` is `None`). -/
def AttributeFilter.get (f : AttributeFilter) (a : CloseApproach) :
    Except PyError Value :=
  match f.kind with
  | .base => .error .unsupportedCriterionError
  | .date =>
      match a.time with
      | none => .error .attributeError
      | some t => .ok (.vdate t.date)
  | .distance => .ok (.vnum a.distance)
  | .velocity => .ok (.vnum a.velocity)
  | .diameter =>
      match a.neo with
      | none => .error .attributeError
      | some n => .ok (.vnum n.diameter)
  | .hazardous =>
      match a.neo with
      | none => .error .attributeError
      | some n => .ok (.vbool n.hazardous)

/-- filters.py `AttributeFilter.__call__`:
`self.op(self.get(approach), self.value)`. -/
def AttributeFilter.call (f : AttributeFilter) (a : CloseApproach) :
    Except PyError Bool :=
  (f.get a).bind fun v => compareValues f.op v f.value

/-- The keyword-argument configuration of filters.py `create_filters`
(every option defaults to `None`). -/
structure FiltersConfig where
  date : Option Date := none
  start_date : Option Date := none
  end_date : Option Date := none
  distance_min : Option Rat := none
  distance_max : Option Rat := none
  velocity_min : Option Rat := none
  velocity_max : Option Rat := none
  diameter_min : Option Rat := none
  diameter_max : Option Rat := none
  hazardous : Option Bool := none
deriving DecidableEq, Repr

/-- One `if option: filters.append(DateFilter(op, option))` block of
`create_filters` (a `date` object is always truthy when present). -/
def dateOptFilter (op : Comparator) (o : Option Date) : List AttributeFilter :=
  match o with
  | some d => [⟨.date, op, .vdate d⟩]
  | none => []

/-- One `if option: filters.append(KindFilter(op, option))` block of
`create_filters` for a float-valued option (Python truthiness of a
number: nonzero). -/
def numOptFilter (k : FilterKind) (op : Comparator) (o : Option Rat) :
    List AttributeFilter :=
  match o with
  | some q => if q = 0 then [] else [⟨k, op, .vnum (some q)⟩]
  | none => []

/-- The `if hazardous is not None: filters.append(HazardousFilter(eq,
hazardous))` block of `create_filters`. -/
def hazOptFilter (o : Option Bool) : List AttributeFilter :=
  match o with
  | some b => [⟨.hazardous, .eq, .vbool b⟩]
  | none => []

/-- filters.py `create_filters`: the sequential `if ...: filters.append`
blocks become list concatenation in the same order. -/
def create_filters (c : FiltersConfig) : List AttributeFilter :=
  dateOptFilter .eq c.date
  ++ dateOptFilter .ge c.start_date
  ++ dateOptFilter .le c.end_date
  ++ numOptFilter .distance .ge c.distance_min
  ++ numOptFilter .distance .le c.distance_max
  ++ numOptFilter .velocity .ge c.velocity_min
  ++ numOptFilter .velocity .le c.velocity_max
  ++ numOptFilter .diameter .ge c.diameter_min
  ++ numOptFilter .diameter .le c.diameter_max
  ++ hazOptFilter c.hazardous

/-- The `enumerate` loop of filters.py `limit` for the `n > 0` branch:
yield while the running index `i` satisfies `i < n`, breaking at
`i >= n`. -/
def limitAux {α : Type} (n : Int) : Nat → List α → List α
  | _, [] => []
  | i, x :: xs => if n ≤ (i : Int) then [] else x :: limitAux n (i + 1) xs

/-- filters.py `limit(iterator, n=None)`: pass the stream through when
`n is None or n <= 0`, otherwise yield the items of the `enumerate`
loop. -/
def limit {α : Type} (stream : List α) (n : Option Int) : List α :=
  match n with
  | none => stream
  | some m => if m ≤ 0 then stream else limitAux m 0 stream

/-- `d.get(k)` on the association-list model of a `dict`. -/
def dictGet {α : Type} (d : List (String × α)) (k : String) : Option α :=
  (d.find? fun p => p.1 == k).map (·.2)

/-- `d[k] = v` on the association-list model of a `dict`: overwrite in
place if the key is present (keeping its position), else append. -/
def dictInsert {α : Type} (d : List (String × α)) (k : String) (v : α) :
    List (String × α) :=
  if (d.find? fun p => p.1 == k).isSome then
    d.map fun p => if p.1 == k then (k, v) else p
  else d ++ [(k, v)]

/-- database.py `{neo.designation: neo for neo in neos}`. -/
def dictOf (neos : List NearEarthObject) : List (String × NearEarthObject) :=
  neos.foldl (fun d n => dictInsert d n.designation n) []

/-- The linking loop of `NEODatabase.__init__` over the approaches, with
the running index `i` made explicit. `neo = self.neo_dict.get(...)`;
`if neo:` (a `NearEarthObject` defines neither `__bool__` nor `__len__`,
so it is truthy exactly when the lookup succeeded); then `approach.neo =
neo` and the index of the approach is appended to the `approaches` list
of the dict entry under that designation key (each NEO object, hence each
`approaches` list, is identified by its dict key; `hasattr` always holds
since the constructor sets `approaches = []`). -/
def linkAux (dict : List (String × NearEarthObject)) :
    List CloseApproach → Nat → (String → List Nat) →
      List CloseApproach × (String → List Nat)
  | [], _, acc => ([], acc)
  | a :: rest, i, acc =>
      match dictGet dict a.designation with
      | some neo =>
          let acc2 : String → List Nat :=
            fun k => if k = a.designation then acc k ++ [i] else acc k
          let r := linkAux dict rest (i + 1) acc2
          ({ a with neo := some neo } :: r.1, r.2)
      | none =>
          let r := linkAux dict rest (i + 1) acc
          (a :: r.1, r.2)

/-- database.py `NEODatabase` after construction: the stored collections
(`_neos`, the in-place-linked `_approaches`), the primary index
`neo_dict`, and the `approaches` lists grown on the NEO objects of the dict
(keyed by designation, see `linkAux`). -/
structure NEODatabase where
  neos : List NearEarthObject
  approaches : List CloseApproach
  neo_dict : List (String × NearEarthObject)
  neoApproaches : String → List Nat

/-- database.py `NEODatabase.__init__`. -/
def NEODatabase.init (neos : List NearEarthObject)
    (approaches : List CloseApproach) : NEODatabase :=
  let dict := dictOf neos
  let r := linkAux dict approaches 0 (fun _ => [])
  ⟨neos, r.1, dict, r.2⟩

/-- database.py `NEODatabase.query(self, filters=())`: the body is
`for approach in self._approaches: yield approach` — the `filters`
argument is never consulted. -/
def NEODatabase.query (db : NEODatabase) (_filters : List AttributeFilter) :
    List CloseApproach :=
  db.approaches

/-- database.py `NEODatabase.get_neo_by_designation`: reject non-string
and empty arguments with a printed diagnostic and `None`; otherwise
`self.neo_dict.get(designation)`, printing a search error when absent.
The result pairs the returned value with the diagnostics printed. -/
def NEODatabase.get_neo_by_designation (db : NEODatabase)
    (designation : PyObj) : Option NearEarthObject × List Report :=
  match designation with
  | .nonString => (none, [.inputErrorNotString])
  | .pyStr s =>
      if s = "" then (none, [.inputErrorEmpty])
      else
        match dictGet db.neo_dict s with
        | some neo => (some neo, [])
        | none => (none, [.searchErrorNotFound])

/-- database.py `NEODatabase.get_neo_by_name`: same input validation;
then a linear scan `for neo in self.neo_dict.values()` returning
`self.neo_dict[neo.designation]` for the first NEO whose `name` equals
the argument (`None == name` is `False`), else a search error. -/
def NEODatabase.get_neo_by_name (db : NEODatabase) (name : PyObj) :
    Option NearEarthObject × List Report :=
  match name with
  | .nonString => (none, [.inputErrorNotString])
  | .pyStr s =>
      if s = "" then (none, [.inputErrorEmpty])
      else
        match db.neo_dict.find? (fun p => p.2.name == some s) with
        | some p => (dictGet db.neo_dict p.2.designation, [])
        | none => (none, [.searchErrorNotFound])

/-- The dictionary produced by models.py `NearEarthObject.serialize`:
`name` falls back to `""` when falsy, `diameter_km` keeps the float
(NaN preserved), `potentially_hazardous` is the flag. -/
structure JsonNeo where
  designation : String
  name : String
  diameter_km : Option Rat
  potentially_hazardous : Bool
deriving DecidableEq, Repr

/-- models.py `NearEarthObject.serialize`. -/
def NearEarthObject.serialize (n : NearEarthObject) : JsonNeo :=
  { designation := n.designation
  , name :=
      match n.name with
      | some s => if s = "" then "" else s
      | none => ""
  , diameter_km := n.diameter
  , potentially_hazardous := n.hazardous }

/-- The dictionary produced by models.py `CloseApproach.serialize`. -/
structure JsonApproach where
  datetime_utc : String
  distance_au : Option Rat
  velocity_km_s : Option Rat
deriving DecidableEq, Repr

/-- models.py `CloseApproach.serialize`: `datetime_to_str(self.time)` has
no `None` guard, so an absent time makes the helper raise (modelled as
`attributeError`). -/
def CloseApproach.serialize (a : CloseApproach) : Except PyError JsonApproach :=
  match a.time with
  | none => .error .attributeError
  | some t => .ok ⟨datetime_to_str t, a.distance, a.velocity⟩

/-- One row written by write.py `write_to_csv` (under the header
`datetime_utc, distance_au, velocity_km_s, designation, name,
diameter_km, potentially_hazardous`). The last two columns are strings
because the source obtains them via `getattr` string defaults. -/
structure CsvRow where
  datetime_utc : String
  distance_au : Option Rat
  velocity_km_s : Option Rat
  designation : String
  name : String
  diameter_km : String
  potentially_hazardous : String
deriving DecidableEq, Repr

/-- The loop body of write.py `write_to_csv` for one approach:
`neo = approach.neo` then `neo.name` (an `AttributeError` when `neo` is
`None`); `neo_diameter = getattr(neo, "diameter_km", "nan")` — a
`NearEarthObject` has no attribute named `diameter_km` (its attribute is
`diameter`), so the default string `"nan"` is always taken; likewise
`getattr(neo, "potentially_hazardous", "False")` always yields the string
`"False"` (the attribute is named `hazardous`), and `str` of it is
written; `approach.time.strftime(...)` raises on an absent time. -/
def csvRow (a : CloseApproach) : Except PyError CsvRow :=
  match a.neo with
  | none => .error .attributeError
  | some neo =>
      match a.time with
      | none => .error .attributeError
      | some t =>
          .ok { datetime_utc := datetime_to_str t
              , distance_au := a.distance
              , velocity_km_s := a.velocity
              , designation := neo.designation
              , name :=
                  match neo.name with
                  | some s => if s = "" then "" else s
                  | none => ""
              , diameter_km := "nan"
              , potentially_hazardous := "False" }

/-- write.py `write_to_csv`, abstracting the file handle: the sequence of
rows written for the result stream. -/
def write_to_csv (results : List CloseApproach) : Except PyError (List CsvRow) :=
  results.mapM csvRow

/-- One record written by write.py `write_to_json`: the serialized
approach with the serialized NEO nested under the `neo` key. -/
structure JsonRecord where
  datetime_utc : String
  distance_au : Option Rat
  velocity_km_s : Option Rat
  neo : JsonNeo
deriving DecidableEq, Repr

/-- write.py `write_to_json`, abstracting the file handle: for each
approach, `approach.serialize()` then `approach_data["neo"] =
approach.neo.serialize()` (an `AttributeError` when `neo` is `None`). -/
def write_to_json (results : List CloseApproach) :
    Except PyError (List JsonRecord) :=
  results.mapM fun a =>
    (a.serialize).bind fun core =>
      match a.neo with
      | none => .error .attributeError
      | some n =>
          .ok ⟨core.datetime_utc, core.distance_au, core.velocity_km_s,
               n.serialize⟩

/-- Written from the amended C3 claim: a date option contributes its
filter exactly when a value is set. -/
def specDateFilter (op : Comparator) (o : Option Date) : List AttributeFilter :=
  Option.elim o [] fun d => [⟨.date, op, .vdate d⟩]

/-- Written from the amended C3 claim: a numeric option contributes its
filter exactly when a value is set and that value is nonzero (a value of
zero is treated like an absent option). -/
def specNumFilter (k : FilterKind) (op : Comparator) (o : Option Rat) :
    List AttributeFilter :=
  Option.elim o [] fun q => if q ≠ 0 then [⟨k, op, .vnum (some q)⟩] else []

/-- Written from the amended C3 claim: the ordered filter list the
factory should produce — one filter per option with a (truthy) value
set, in the fixed option order, where `hazardous` counts as set whenever
it is not absent (so `false` does produce a filter), date options count
as set whenever present, and numeric options count as set only when
nonzero. -/
def specFilters (c : FiltersConfig) : List AttributeFilter :=
  specDateFilter .eq c.date
  ++ specDateFilter .ge c.start_date
  ++ specDateFilter .le c.end_date
  ++ specNumFilter .distance .ge c.distance_min
  ++ specNumFilter .distance .le c.distance_max
  ++ specNumFilter .velocity .ge c.velocity_min
  ++ specNumFilter .velocity .le c.velocity_max
  ++ specNumFilter .diameter .ge c.diameter_min
  ++ specNumFilter .diameter .le c.diameter_max
  ++ Option.elim c.hazardous [] fun b => [⟨.hazardous, .eq, .vbool b⟩]

/-- Proof-layer description of the index lists grown by `linkAux`: the
indices (counted from `i`) of the approaches whose designation is `k`
and whose dict lookup succeeds. -/
def linkedIdx (dict : List (String × NearEarthObject)) (k : String) :
    List CloseApproach → Nat → List Nat
  | [], _ => []
  | a :: rest, i =>
      if a.designation = k ∧ (dictGet dict a.designation).isSome
      then i :: linkedIdx dict k rest (i + 1)
      else linkedIdx dict k rest (i + 1)

/-- A concrete NEO for the evaluation theorems (diameter 16 km, not
hazardous). -/
def neoEros : NearEarthObject :=
  NearEarthObject.init "433" (some "Eros") (some 16) false

/-- A concrete close approach matching `neoEros` (distance 15, velocity
5), before linking. -/
def appEros : CloseApproach :=
  CloseApproach.init "433" (some ⟨18262, 0⟩) (some 15) (some 5) none

/-- A concrete close approach matching no catalog NEO, before linking. -/
def appStray : CloseApproach :=
  CloseApproach.init "9999" (some ⟨18300, 10⟩) (some 7) (some 2) none

/-- `DistanceFilter(operator.le, 1)`: a filter that `appEros` (distance
15) fails. -/
def distLeOne : AttributeFilter := ⟨.distance, .le, .vnum (some 1)⟩

/-- A concrete hazardous NEO with a known diameter, for the export
evaluation. -/
def neoHaz : NearEarthObject :=
  NearEarthObject.init "2020 XY" (some "Example") (some 2) true

/-- A concrete close approach already linked to `neoHaz`. -/
def appHaz : CloseApproach :=
  CloseApproach.init "2020 XY" (some ⟨5, 30⟩) (some 1) (some 3) (some neoHaz)

/-! ## Lemmas -/

theorem dateOptFilter_eq_spec (op : Comparator) (o : Option Date) :
    dateOptFilter op o = specDateFilter op o := by
  cases o <;> rfl

theorem numOptFilter_eq_spec (k : FilterKind) (op : Comparator) (o : Option Rat) :
    numOptFilter k op o = specNumFilter k op o := by
  rcases o with _ | q
  · rfl
  · by_cases h : q = 0 <;> simp [numOptFilter, specNumFilter, h]

theorem hazOptFilter_eq_spec (o : Option Bool) :
    hazOptFilter o = Option.elim o [] fun b => [⟨.hazardous, .eq, .vbool b⟩] := by
  cases o <;> rfl

theorem dictInsert_of_not_mem {α : Type} (d : List (String × α)) (k : String)
    (v : α) (h : ∀ p ∈ d, p.1 ≠ k) : dictInsert d k v = d ++ [(k, v)] := by
  have hf : (d.find? fun p => p.1 == k) = none :=
    List.find?_eq_none.mpr fun p hp => by simp [h p hp]
  simp [dictInsert, hf]

theorem dictOf_go (neos : List NearEarthObject) :
    ∀ d0 : List (String × NearEarthObject),
      (∀ n ∈ neos, ∀ p ∈ d0, p.1 ≠ n.designation) →
      (neos.map (·.designation)).Nodup →
      neos.foldl (fun d n => dictInsert d n.designation n) d0
        = d0 ++ neos.map fun n => (n.designation, n) := by
  induction neos with
  | nil => intro d0 _ _; simp
  | cons n rest ih =>
      intro d0 hdisj hnd
      have hnd2 : (∀ x ∈ rest, ¬ x.designation = n.designation)
          ∧ (rest.map (·.designation)).Nodup := by simpa using hnd
      rw [List.foldl_cons,
        dictInsert_of_not_mem d0 n.designation n
          (fun p hp => hdisj n (List.mem_cons_self n rest) p hp),
        ih (d0 ++ [(n.designation, n)]) ?_ hnd2.2]
      · simp
      · intro m hm p hp
        rcases List.mem_append.mp hp with h | h
        · exact hdisj m (List.mem_cons_of_mem n hm) p h
        · have hp2 : p = (n.designation, n) := by simpa using h
          subst hp2
          intro he
          exact hnd2.1 m hm he.symm

theorem dictOf_eq_map (neos : List NearEarthObject)
    (hnd : (neos.map (·.designation)).Nodup) :
    dictOf neos = neos.map fun n => (n.designation, n) := by
  have := dictOf_go neos [] (by simp) hnd
  simpa [dictOf] using this

theorem dictGet_map_designation (neos : List NearEarthObject) (k : String) :
    dictGet (neos.map fun n => (n.designation, n)) k
      = neos.find? fun n => n.designation == k := by
  unfold dictGet
  rw [List.find?_map]
  have hp : ((fun p : String × NearEarthObject => p.1 == k)
      ∘ fun n => (n.designation, n)) = fun n => n.designation == k := rfl
  rw [hp]
  cases neos.find? fun n => n.designation == k <;> rfl

theorem find?_designation_of_nodup :
    ∀ (neos : List NearEarthObject), (neos.map (·.designation)).Nodup →
      ∀ neo ∈ neos,
        neos.find? (fun m => m.designation == neo.designation) = some neo := by
  intro neos
  induction neos with
  | nil => simp
  | cons m rest ih =>
      intro hnd neo hmem
      have hnd2 : (∀ x ∈ rest, ¬ x.designation = m.designation)
          ∧ (rest.map (·.designation)).Nodup := by simpa using hnd
      rcases List.mem_cons.mp hmem with rfl | hmem2
      · exact List.find?_cons_of_pos rest (by simp)
      · have hne : m.designation ≠ neo.designation := fun he =>
          hnd2.1 neo hmem2 he.symm
        rw [List.find?_cons_of_neg rest (by simp [hne])]
        exact ih hnd2.2 neo hmem2

theorem map_getD_lt {α β : Type} (f : α → β) (l : List α) (dα : α) (dβ : β)
    (i : Nat) (h : i < l.length) :
    (l.map f).getD i dβ = f (l.getD i dα) := by
  rw [List.getD_eq_getElem _ _ (by simpa using h), List.getD_eq_getElem _ _ h,
    List.getElem_map]

theorem linkAux_fst (dict : List (String × NearEarthObject)) :
    ∀ (as : List CloseApproach) (i : Nat) (acc : String → List Nat),
      (linkAux dict as i acc).1 = as.map fun a =>
        match dictGet dict a.designation with
        | some neo => { a with neo := some neo }
        | none => a := by
  intro as
  induction as with
  | nil => intro i acc; rfl
  | cons a rest ih =>
      intro i acc
      cases hd : dictGet dict a.designation with
      | some neo => simp [linkAux, hd, ih]
      | none => simp [linkAux, hd, ih]

theorem linkAux_snd (dict : List (String × NearEarthObject)) :
    ∀ (as : List CloseApproach) (i : Nat) (acc : String → List Nat) (k : String),
      (linkAux dict as i acc).2 k = acc k ++ linkedIdx dict k as i := by
  intro as
  induction as with
  | nil => intro i acc k; simp [linkAux, linkedIdx]
  | cons a rest ih =>
      intro i acc k
      cases hd : dictGet dict a.designation with
      | some neo =>
          rw [linkedIdx]
          by_cases hk : a.designation = k
          · rw [if_pos ⟨hk, by rw [hd]; rfl⟩]
            simp only [linkAux, hd, ih]
            rw [if_pos hk.symm]
            simp
          · rw [if_neg (fun hc => hk hc.1)]
            simp only [linkAux, hd, ih]
            rw [if_neg (fun hc => hk hc.symm)]
      | none =>
          rw [linkedIdx, if_neg (by simp [hd])]
          simp only [linkAux, hd, ih]

theorem linkedIdx_eq_filter (dict : List (String × NearEarthObject))
    (k : String) (hk : (dictGet dict k).isSome) :
    ∀ (as : List CloseApproach) (i : Nat),
      linkedIdx dict k as i =
        ((List.range as.length).filter fun t =>
            (as.getD t default).designation == k).map (· + i) := by
  intro as
  induction as with
  | nil => intro i; simp [linkedIdx]
  | cons a rest ih =>
      intro i
      rw [linkedIdx, List.length_cons, List.range_succ_eq_map, List.filter_cons]
      have hcomp : ((fun t => ((a :: rest).getD t default).designation == k)
          ∘ Nat.succ) = fun t => (rest.getD t default).designation == k := rfl
      by_cases hak : a.designation = k
      · rw [if_pos ⟨hak, by rw [hak]; exact hk⟩, ih (i + 1)]
        rw [if_pos (by simp [hak]), List.map_cons, List.filter_map, hcomp,
          List.map_map]
        refine congrArg₂ List.cons (by omega) (List.map_congr_left fun t _ => ?_)
        simp [Function.comp]
        omega
      · rw [if_neg (fun hc => hak hc.1), ih (i + 1)]
        rw [if_neg (by simp [hak]), List.filter_map, hcomp, List.map_map]
        refine List.map_congr_left fun t _ => ?_
        simp [Function.comp]
        omega

theorem init_neo_dict (neos : List NearEarthObject)
    (apps : List CloseApproach) :
    (NEODatabase.init neos apps).neo_dict = dictOf neos := rfl

theorem init_approaches (neos : List NearEarthObject)
    (apps : List CloseApproach) :
    (NEODatabase.init neos apps).approaches
      = (linkAux (dictOf neos) apps 0 fun _ => []).1 := rfl

theorem init_neoApproaches (neos : List NearEarthObject)
    (apps : List CloseApproach) :
    (NEODatabase.init neos apps).neoApproaches
      = (linkAux (dictOf neos) apps 0 fun _ => []).2 := rfl

theorem limitAux_eq_take {α : Type} (n : Int) (xs : List α) :
    ∀ i : Nat, (i : Int) ≤ n → limitAux n i xs = xs.take (n - i).toNat := by
  induction xs with
  | nil => intro i _; simp [limitAux]
  | cons x xs ih =>
      intro i hi
      by_cases hni : n ≤ (i : Int)
      · have ht : (n - i).toNat = 0 := by omega
        simp [limitAux, hni, ht]
      · have h1 : ((i + 1 : Nat) : Int) ≤ n := by push_cast; omega
        have h2 : (n - (i : Int)).toNat = (n - ((i + 1 : Nat) : Int)).toNat + 1 := by
          push_cast; omega
        rw [limitAux, if_neg hni, ih (i + 1) h1, h2, List.take_succ_cons]

end NeoExplorer

namespace NeoExplorer

/-! ## Claim theorems -/

/-- Claim C2: after `NEODatabase` construction with unique NEO
designations, the approaches grown on a NEO (the `neoApproaches` list
under its designation key) are exactly the input positions whose
designation matches that NEO, each appearing exactly once and in input
order; each such stored approach is the input approach with its `neo`
reference set to that NEO; and every approach matching no NEO is stored
unchanged with its `neo` reference still null — no error is raised
(construction is total). -/
theorem claim_C2_linking (neos : List NearEarthObject)
    (apps : List CloseApproach) (db : NEODatabase)
    (hdb : db = NEODatabase.init neos apps)
    (hnd : (neos.map (·.designation)).Nodup)
    (hpre : ∀ a ∈ apps, a.neo = none) :
    (∀ neo ∈ neos,
        db.neoApproaches neo.designation =
          (List.range apps.length).filter
            (fun i => (apps.getD i default).designation == neo.designation)
        ∧ ∀ i ∈ db.neoApproaches neo.designation,
            db.approaches.getD i default =
              { apps.getD i default with neo := some neo })
    ∧ ∀ i, i < apps.length →
        (∀ neo ∈ neos, neo.designation ≠ (apps.getD i default).designation) →
          db.approaches.getD i default = apps.getD i default
          ∧ (db.approaches.getD i default).neo = none := by
  subst hdb
  have hdict : dictOf neos = neos.map fun n => (n.designation, n) :=
    dictOf_eq_map neos hnd
  have happr : (NEODatabase.init neos apps).approaches
      = apps.map fun a =>
          match dictGet (dictOf neos) a.designation with
          | some neo => { a with neo := some neo }
          | none => a := by
    rw [init_approaches, linkAux_fst]
  have hlists : ∀ k, (NEODatabase.init neos apps).neoApproaches k
      = linkedIdx (dictOf neos) k apps 0 := by
    intro k
    rw [init_neoApproaches, linkAux_snd]
    simp
  constructor
  · intro neo hmem
    have hget : dictGet (dictOf neos) neo.designation = some neo := by
      rw [hdict, dictGet_map_designation]
      exact find?_designation_of_nodup neos hnd neo hmem
    have hIdx : (NEODatabase.init neos apps).neoApproaches neo.designation
        = (List.range apps.length).filter
            (fun i => (apps.getD i default).designation == neo.designation) := by
      rw [hlists, linkedIdx_eq_filter _ _ (by rw [hget]; rfl) apps 0]
      simp
    refine ⟨hIdx, fun i hi => ?_⟩
    rw [hIdx] at hi
    have hi2 := List.mem_filter.mp hi
    have hlt : i < apps.length := List.mem_range.mp hi2.1
    have hdes : (apps.getD i default).designation = neo.designation := by
      have := hi2.2
      simpa using this
    have hget2 : dictGet (dictOf neos) (apps.getD i default).designation
        = some neo := by rw [hdes]; exact hget
    rw [happr, map_getD_lt _ apps default default i hlt, hget2]
  · intro i hlt habs
    have hnone : dictGet (dictOf neos) (apps.getD i default).designation
        = none := by
      rw [hdict, dictGet_map_designation]
      exact List.find?_eq_none.mpr fun n hn => by simpa using habs n hn
    have hmem : apps.getD i default ∈ apps := by
      rw [List.getD_eq_getElem _ _ hlt]
      exact List.getElem_mem hlt
    rw [happr, map_getD_lt _ apps default default i hlt, hnone]
    exact ⟨rfl, hpre _ hmem⟩

/-- Claim C2 (witness): a catalog with one NEO, one matching approach
and one stray approach. -/
theorem claim_C2_linking_witness :
    (∀ neo ∈ [neoEros],
        (NEODatabase.init [neoEros] [appEros, appStray]).neoApproaches
            neo.designation =
          (List.range [appEros, appStray].length).filter
            (fun i => ([appEros, appStray].getD i default).designation
              == neo.designation)
        ∧ ∀ i ∈ (NEODatabase.init [neoEros] [appEros, appStray]).neoApproaches
              neo.designation,
            (NEODatabase.init [neoEros] [appEros, appStray]).approaches.getD
                i default =
              { [appEros, appStray].getD i default with neo := some neo })
    ∧ ∀ i, i < [appEros, appStray].length →
        (∀ neo ∈ [neoEros],
            neo.designation ≠ ([appEros, appStray].getD i default).designation) →
          (NEODatabase.init [neoEros] [appEros, appStray]).approaches.getD
              i default = [appEros, appStray].getD i default
          ∧ ((NEODatabase.init [neoEros] [appEros, appStray]).approaches.getD
              i default).neo = none :=
  claim_C2_linking [neoEros] [appEros, appStray] _ rfl (by decide) (by decide)

/-- Claim C3 (counterexample): the claim says any numeric option with a
value set — including 0 — produces its filter, but `create_filters` with
`distance_min = 0` produces no filter at all (`if distance_min:` is
falsy at zero). -/
theorem claim_C3_counterexample :
    ({ distance_min := some 0 : FiltersConfig }).distance_min = some 0
    ∧ create_filters { distance_min := some 0 } = [] := by
  constructor <;> rfl

/-- Claim C3 (amended): for every configuration, the filter factory
returns the ordered list with exactly one filter per option with a
truthy value set — dates when present, numeric options when present and
nonzero (a numeric value of 0 is treated like an absent option), and
`hazardous` whenever it is not absent (so `hazardous = false` does
produce an equality filter) — and no filter for the remaining options. -/
theorem claim_C3_amended (c : FiltersConfig) :
    create_filters c = specFilters c := by
  unfold create_filters specFilters
  rw [dateOptFilter_eq_spec, dateOptFilter_eq_spec, dateOptFilter_eq_spec,
    numOptFilter_eq_spec, numOptFilter_eq_spec, numOptFilter_eq_spec,
    numOptFilter_eq_spec, numOptFilter_eq_spec, numOptFilter_eq_spec,
    hazOptFilter_eq_spec]

/-- Claim C4: `get_neo_by_designation` returns a reported failure and a
null result (never an exception) on a non-string or empty-string
argument; on a non-empty string it returns the catalog NEO with exactly
that designation when one exists (designations are unique by the data
model), and otherwise returns null with a reported, non-fatal not-found
diagnostic. -/
theorem claim_C4_get_by_designation (neos : List NearEarthObject)
    (apps : List CloseApproach) (db : NEODatabase)
    (hdb : db = NEODatabase.init neos apps)
    (hnd : (neos.map (·.designation)).Nodup) :
    db.get_neo_by_designation .nonString = (none, [.inputErrorNotString])
    ∧ db.get_neo_by_designation (.pyStr "") = (none, [.inputErrorEmpty])
    ∧ ∀ s : String, s ≠ "" →
        (∀ neo ∈ neos, neo.designation = s →
            db.get_neo_by_designation (.pyStr s) = (some neo, []))
        ∧ ((∀ neo ∈ neos, neo.designation ≠ s) →
            db.get_neo_by_designation (.pyStr s)
              = (none, [.searchErrorNotFound])) := by
  subst hdb
  have hdict : (NEODatabase.init neos apps).neo_dict
      = neos.map fun n => (n.designation, n) := by
    rw [init_neo_dict]
    exact dictOf_eq_map neos hnd
  refine ⟨rfl, rfl, fun s hs => ⟨fun neo hmem hdes => ?_, fun habs => ?_⟩⟩
  · have hget : dictGet (NEODatabase.init neos apps).neo_dict s = some neo := by
      rw [hdict, dictGet_map_designation, ← hdes]
      exact find?_designation_of_nodup neos hnd neo hmem
    simp [NEODatabase.get_neo_by_designation, hs, hget]
  · have hget : dictGet (NEODatabase.init neos apps).neo_dict s = none := by
      rw [hdict, dictGet_map_designation]
      exact List.find?_eq_none.mpr fun n hn => by simpa using habs n hn
    simp [NEODatabase.get_neo_by_designation, hs, hget]

/-- Claim C4 (witness): lookups on a one-NEO catalog. -/
theorem claim_C4_get_by_designation_witness :
    (NEODatabase.init [neoEros] []).get_neo_by_designation .nonString
      = (none, [.inputErrorNotString])
    ∧ (NEODatabase.init [neoEros] []).get_neo_by_designation (.pyStr "")
      = (none, [.inputErrorEmpty])
    ∧ (NEODatabase.init [neoEros] []).get_neo_by_designation (.pyStr "433")
      = (some neoEros, [])
    ∧ (NEODatabase.init [neoEros] []).get_neo_by_designation (.pyStr "1")
      = (none, [.searchErrorNotFound]) := by
  have h := claim_C4_get_by_designation [neoEros] [] _ rfl (by decide)
  exact ⟨h.1, h.2.1,
    (h.2.2 "433" (by decide)).1 neoEros (by simp) (by decide),
    (h.2.2 "1" (by decide)).2 (by decide)⟩

/-- Claim C5: `get_neo_by_name` has the same input-validation contract
(reported failure and null on non-string or empty input, no exception);
on a non-empty string it performs a linear scan over the catalog NEOs in
input order and returns the first NEO whose display name equals the
argument under case-sensitive exact comparison (`List.find?` on the NEO
list), or null with a reported not-found diagnostic when no NEO has that
name. -/
theorem claim_C5_get_by_name (neos : List NearEarthObject)
    (apps : List CloseApproach) (db : NEODatabase)
    (hdb : db = NEODatabase.init neos apps)
    (hnd : (neos.map (·.designation)).Nodup) :
    db.get_neo_by_name .nonString = (none, [.inputErrorNotString])
    ∧ db.get_neo_by_name (.pyStr "") = (none, [.inputErrorEmpty])
    ∧ ∀ s : String, s ≠ "" →
        (∀ neo, neos.find? (fun n => n.name == some s) = some neo →
            db.get_neo_by_name (.pyStr s) = (some neo, []))
        ∧ (neos.find? (fun n => n.name == some s) = none →
            db.get_neo_by_name (.pyStr s) = (none, [.searchErrorNotFound])) := by
  subst hdb
  have hdict : (NEODatabase.init neos apps).neo_dict
      = neos.map fun n => (n.designation, n) := by
    rw [init_neo_dict]
    exact dictOf_eq_map neos hnd
  refine ⟨rfl, rfl, fun s hs => ⟨fun neo hfind => ?_, fun hnone => ?_⟩⟩
  · have hmem : neo ∈ neos := List.mem_of_find?_eq_some hfind
    have hscan : (NEODatabase.init neos apps).neo_dict.find?
        (fun p => p.2.name == some s) = some (neo.designation, neo) := by
      rw [hdict, List.find?_map,
        show ((fun p : String × NearEarthObject => p.2.name == some s)
          ∘ fun n => (n.designation, n)) = fun n => n.name == some s from rfl,
        hfind]
      rfl
    have hget : dictGet (NEODatabase.init neos apps).neo_dict neo.designation
        = some neo := by
      rw [hdict, dictGet_map_designation]
      exact find?_designation_of_nodup neos hnd neo hmem
    simp [NEODatabase.get_neo_by_name, hs, hscan, hget]
  · have hscan : (NEODatabase.init neos apps).neo_dict.find?
        (fun p => p.2.name == some s) = none := by
      rw [hdict, List.find?_map,
        show ((fun p : String × NearEarthObject => p.2.name == some s)
          ∘ fun n => (n.designation, n)) = fun n => n.name == some s from rfl,
        hnone]
      rfl
    simp [NEODatabase.get_neo_by_name, hs, hscan]

/-- Claim C5 (witness): name lookups on a one-NEO catalog, including the
case-sensitivity of the comparison. -/
theorem claim_C5_get_by_name_witness :
    (NEODatabase.init [neoEros] []).get_neo_by_name .nonString
      = (none, [.inputErrorNotString])
    ∧ (NEODatabase.init [neoEros] []).get_neo_by_name (.pyStr "")
      = (none, [.inputErrorEmpty])
    ∧ (NEODatabase.init [neoEros] []).get_neo_by_name (.pyStr "Eros")
      = (some neoEros, [])
    ∧ (NEODatabase.init [neoEros] []).get_neo_by_name (.pyStr "eros")
      = (none, [.searchErrorNotFound]) := by
  have h := claim_C5_get_by_name [neoEros] [] _ rfl (by decide)
  exact ⟨h.1, h.2.1,
    (h.2.2 "Eros" (by decide)).1 neoEros (by decide),
    (h.2.2 "eros" (by decide)).2 (by decide)⟩

/-- Claim C6: `limit` yields exactly the first `min(n, len(stream))`
items of the stream, in order, when `n > 0`; with `n` unset (`None`) or
non-positive it yields the whole stream unchanged. -/
theorem claim_C6_limit {α : Type} (s : List α) (n : Int) :
    (0 < n →
      limit s (some n) = s.take n.toNat
      ∧ (limit s (some n)).length = min n.toNat s.length)
    ∧ limit s none = s
    ∧ (n ≤ 0 → limit s (some n) = s) := by
  refine ⟨fun hn => ?_, rfl, fun hn => ?_⟩
  · have hne : ¬ n ≤ 0 := by omega
    have h0 : ((0 : Nat) : Int) ≤ n := by omega
    have := limitAux_eq_take n s 0 h0
    simp only [Int.ofNat_zero, sub_zero] at this
    constructor
    · simp [limit, hne, this]
    · simp [limit, hne, this, List.length_take]
  · simp [limit, hn]

/-- Claim C6 (witness): instantiation at a concrete stream and bounds. -/
theorem claim_C6_limit_witness :
    limit [10, 20, 30] (some 2) = List.take (Int.toNat 2) [10, 20, 30]
    ∧ limit ([10, 20, 30] : List Nat) none = [10, 20, 30]
    ∧ limit ([10, 20, 30] : List Nat) (some 0) = [10, 20, 30] :=
  ⟨((claim_C6_limit [10, 20, 30] 2).1 (by decide)).1,
   (claim_C6_limit [10, 20, 30] 2).2.1,
   (claim_C6_limit [10, 20, 30] 0).2.2 (by decide)⟩

/-- Claim C8: invoking the base `AttributeFilter.get` accessor directly
raises `UnsupportedCriterionError` for every close approach — a fatal
exception, not the reported-null pattern of the lookup methods. -/
theorem claim_C8_base_get (op : Comparator) (v : Value) (a : CloseApproach) :
    AttributeFilter.get ⟨.base, op, v⟩ a = .error .unsupportedCriterionError
    ∧ AttributeFilter.call ⟨.base, op, v⟩ a
        = .error .unsupportedCriterionError := by
  exact ⟨rfl, rfl⟩

/-- Claim C9 (counterexample): constructing a `NearEarthObject` with the
empty string as its name does not keep the empty string — `str(name) if
name else None` collapses it to `None`, the same state as an absent
name, so the two are not distinguishable. -/
theorem claim_C9_counterexample :
    (NearEarthObject.init "433" (some "") none false).name ≠ some ""
    ∧ (NearEarthObject.init "433" (some "") none false).name = none
    ∧ (NearEarthObject.init "433" (some "") none false).name
        = (NearEarthObject.init "433" none none false).name := by
  refine ⟨?_, rfl, rfl⟩
  intro h
  simp [NearEarthObject.init] at h

/-- Claim C9 (amended): for every designation, diameter and hazardous
flag, a `NearEarthObject` constructed with the empty string as its name
ends up with an absent (`None`) name, identical to the name state of one
constructed with the name absent: the constructor collapses the empty
string into absence. -/
theorem claim_C9_amended (d : String) (dia : Option Rat) (hz : Bool) :
    (NearEarthObject.init d (some "") dia hz).name = none
    ∧ (NearEarthObject.init d none dia hz).name = none := by
  exact ⟨by simp [NearEarthObject.init], rfl⟩

/-- Claim C1 (evaluation at the failing input): `query` never consults
its filters — its body yields every stored approach. On the catalog with
the single NEO `neoEros` and the single approach `appEros`, querying
with the one-element filter list `[DistanceFilter(le, 1)]` yields the
(linked) approach even though that filter evaluates to `False` on it, so
the stream is not restricted to the approaches satisfying every
filter. -/
theorem claim_C1_query_ignores_filters :
    (NEODatabase.init [neoEros] [appEros]).query [distLeOne]
      = [{ appEros with neo := some neoEros }]
    ∧ distLeOne.call { appEros with neo := some neoEros } = .ok false
    ∧ (NEODatabase.init [neoEros] [appEros]).query []
      = (NEODatabase.init [neoEros] [appEros]).query [distLeOne] := by
  exact ⟨rfl, rfl, rfl⟩

/-- Claim C7 (evaluation at the failing input): for the linked approach
`appHaz` whose NEO has diameter 2 and hazardous flag `true`, the CSV
serializer does not write the diameter and hazardous field values of its NEO:
`getattr(neo, "diameter_km", "nan")` and `getattr(neo,
"potentially_hazardous", "False")` name attributes a `NearEarthObject`
does not have (they are `diameter` and `hazardous`), so the constant
strings `"nan"` and `"False"` are written for every row. The JSON
serializer, by contrast, does nest the serialized NEO fields under the
`neo` key as the claim states. -/
theorem claim_C7_csv_constant_columns :
    neoHaz.diameter = some 2
    ∧ neoHaz.hazardous = true
    ∧ (write_to_csv [appHaz]).map (List.map CsvRow.diameter_km) = .ok ["nan"]
    ∧ (write_to_csv [appHaz]).map (List.map CsvRow.potentially_hazardous)
        = .ok ["False"]
    ∧ (write_to_json [appHaz]).map (List.map JsonRecord.neo)
        = .ok [neoHaz.serialize]
    ∧ neoHaz.serialize.diameter_km = some 2
    ∧ neoHaz.serialize.potentially_hazardous = true := by
  exact ⟨by decide, rfl, rfl, rfl, rfl, by decide, rfl⟩

/-- Claim C10: for every comparison operator and reference value, a Date
filter evaluated on a constructor-built close approach whose time is
absent does not return a boolean: `DateFilter.get` calls `.date()` on
the absent time without a guard, raising an `AttributeError`. -/
theorem claim_C10_date_filter_none_time (op : Comparator) (v : Value)
    (d : String) (dist vel : Option Rat) (neo : Option NearEarthObject) :
    (CloseApproach.init d none dist vel neo).time = none
    ∧ AttributeFilter.call ⟨.date, op, v⟩ (CloseApproach.init d none dist vel neo)
        = .error .attributeError := by
  exact ⟨rfl, rfl⟩

end NeoExplorer
